import Mathlib

/-!
Verification of the route-trip segmentation, route grouping, geocoding-cache
and route-color subsystem of the admin-toolbox repository (`src/utils.py`).

The Python code is shallowly embedded:
* Python `str.strip()` / `.lower()` / `.upper()` are modelled over the
  character list of a `String` (`pyStrip`, `pyLower`, `pyUpper`); Python's
  whitespace set is modelled by `Char.isWhitespace` and its case folding by
  `Char.toLower` / `Char.toUpper` (the data in this development is ASCII,
  where the two coincide).
* Python `needle in hay` substring tests are `pyContains`.
* `datetime.time` values are minutes after midnight (`Nat`); comparison of
  Python `time` objects is the numeric order on minutes.
* A pandas timestamp that is missing (`NaN`/`None`, i.e. `pd.isna`) is
  `Option.none`.
-/

/-- Python `str.strip()` on a character list: drop whitespace at both ends. -/
def pyStripList (l : List Char) : List Char :=
  ((l.dropWhile Char.isWhitespace).reverse.dropWhile Char.isWhitespace).reverse

/-- Python `str.strip()`. -/
def pyStrip (s : String) : String :=
  String.mk (pyStripList s.data)

/-- Python `str.lower()` (ASCII case folding). -/
def pyLower (s : String) : String :=
  String.mk (s.data.map Char.toLower)

/-- Python `str.upper()` (ASCII case folding). -/
def pyUpper (s : String) : String :=
  String.mk (s.data.map Char.toUpper)

/-- Python `needle in hay` on character lists: `needle` occurs contiguously. -/
def listContainsSub : List Char → List Char → Bool
  | [], needle => needle.isEmpty
  | h :: t, needle => needle.isPrefixOf (h :: t) || listContainsSub t needle

/-- Python `needle in hay` for strings. -/
def pyContains (hay needle : String) : Bool :=
  listContainsSub hay.data needle.data

/-!
## Visits and the trip splitter (`src/utils.py` lines 700-825)

A visit dict produced by `build_routes_by_date` has keys
`starttid, sluttid, namn, adress, besokstyp, slinga`.  `starttid`/`sluttid`
are modelled by the time of day they carry (minutes), `none` when the value
is missing or unparseable (then `_visit_time_start` returns `None`).

The extra ghost field `synthetic` models Python object identity: it is
`false` on every visit built from an input row and `true` exactly on the
fresh depot dicts that `_ensure_trip_starts_ends_default` synthesizes
(`dict(default_visit)` creates new objects never present in the input).
-/

structure Visit where
  starttid : Option Nat
  sluttid : Option Nat
  namn : String
  adress : String
  besokstyp : String
  slinga : String
  synthetic : Bool := false
deriving DecidableEq, Repr

/-- `_visit_time_start` (utils.py 700-711): extract the start time of a
visit; `none` models a missing (`NaN`) or unparseable value. -/
def visit_time_start (v : Visit) : Option Nat :=
  v.starttid

/-- `_is_break_visit` (utils.py 714-723): the visit is at the default
address and `besokstyp`/`namn` contains one of the break names. -/
def is_break_visit (v : Visit) (breakNames : List String) (defaultAddress : String) : Bool :=
  let addr := pyLower (pyStrip v.adress)
  if addr ≠ pyLower (pyStrip defaultAddress) then false
  else
    let text := pyUpper (pyStrip (v.besokstyp ++ " " ++ v.namn))
    breakNames.any (fun nm => nm ≠ "" && pyContains text (pyUpper (pyStrip nm)))

/-- The fresh depot dict `default_visit` built inside
`_ensure_trip_starts_ends_default` (utils.py 733-741), for a trip whose
first visit is `first`.  `defaultName` is `get_default_location_name()`. -/
def defaultDepotVisit (defaultName defaultAddress : String) (first : Visit) : Visit :=
  { starttid := first.starttid
    sluttid := none
    namn := defaultName
    adress := pyStrip defaultAddress
    besokstyp := ""
    slinga := first.slinga
    synthetic := true }

/-- `_ensure_trip_starts_ends_default` (utils.py 726-754): prepend a fresh
depot visit when the first visit is not at the default address, append one
(carrying `sluttid or starttid` of the last visit — Python `or`, where a
present timestamp is always truthy) when the last visit is not.  The Python
code mutates the copied list (`insert(0, ...)` / `append`), which equals
the prefix/suffix concatenation below; `first`/`last` are read before any
mutation. -/
def ensure_trip_starts_ends_default (defaultName : String) (visits : List Visit)
    (defaultAddress : String) : List Visit :=
  match visits with
  | [] => []
  | first :: rest =>
    let defaultNorm := pyLower (pyStrip defaultAddress)
    let lastV := (first :: rest).getLast (List.cons_ne_nil _ _)
    let base := defaultDepotVisit defaultName defaultAddress first
    (if pyLower (pyStrip first.adress) ≠ defaultNorm then [base] else [])
      ++ (first :: rest)
      ++ (if pyLower (pyStrip lastV.adress) ≠ defaultNorm then
            [{ base with starttid := lastV.sluttid.or lastV.starttid, sluttid := lastV.sluttid }]
          else [])

/-- `_trip_name_for_no_breaks` (utils.py 757-771). -/
def trip_name_for_no_breaks (visits : List Visit) (lunchStart eveningStart : Nat) : String :=
  match visits with
  | [] => "morning"
  | v :: _ =>
    match visit_time_start v with
    | none => "morning"
    | some t =>
      if t < lunchStart then "morning"
      else if t < eveningStart then "afternoon"
      else "evening"

/-- The configuration read by `split_route_into_trips` through
`get_break_names`, `get_break_lunch_window`, `get_break_evening_window`
and (inside `_ensure_trip_starts_ends_default`) `get_default_location_name`;
modelled as an explicit parameter. -/
structure BreakConfig where
  breakNames : List String
  lunchStart : Nat
  lunchEnd : Nat
  eveningStart : Nat
  eveningEnd : Nat
  defaultLocationName : String
deriving DecidableEq, Repr

/-- The decision made at each visit of the splitter loop (utils.py 795-813):
`none` when the visit does not end the current trip (not a break, no start
time, or the time is in neither window), `some false` for a break in the
lunch window (closes a "morning" trip), `some true` for a break in the
evening window (closes an "afternoon" trip; the lunch window is tested
first, exactly as the `if`/`elif` chain does). -/
def cutKind (cfg : BreakConfig) (defaultAddress : String) (v : Visit) : Option Bool :=
  if ¬ is_break_visit v cfg.breakNames defaultAddress then none
  else
    match visit_time_start v with
    | none => none
    | some t =>
      if cfg.lunchStart ≤ t ∧ t ≤ cfg.lunchEnd then some false
      else if cfg.eveningStart ≤ t ∧ t ≤ cfg.eveningEnd then some true
      else none

/-- The accumulation loop of `split_route_into_trips` (utils.py 793-813):
walk the visits appending to `current`; at each window break close the
current segment (tagged with `true` when the break was an evening one) and
start a new segment.  Returns the closed tagged segments and the trailing
`current` buffer. -/
def goSplit (cut : Visit → Option Bool) : List Visit → List Visit →
    List (Bool × List Visit) × List Visit
  | [], current => ([], current)
  | v :: rest, current =>
    match cut v with
    | none => goSplit cut rest (current ++ [v])
    | some ev =>
      ((ev, current ++ [v]) :: (goSplit cut rest []).1, (goSplit cut rest []).2)

/-- `split_route_into_trips` (utils.py 774-825).  Each closed segment is
depot-padded and named ("morning" for a lunch-break cut, "afternoon" for an
evening-break cut, both skipped if the padding returns an empty list —
which cannot happen for a non-empty segment, but the guard is kept).  The
trailing buffer, when non-empty, is named "evening"/"afternoon" after the
last break when any trip was already emitted, else by the no-break
heuristic. -/
def split_route_into_trips (cfg : BreakConfig) (visits : List Visit)
    (defaultAddress : String) : List (String × List Visit) :=
  if visits.isEmpty then []
  else
    let cut := cutKind cfg defaultAddress
    let pair := goSplit cut visits []
    let raw := pair.1.filterMap (fun p =>
      let ensured := ensure_trip_starts_ends_default cfg.defaultLocationName p.2 defaultAddress
      if ensured.isEmpty then none
      else some ((if p.1 then "afternoon" else "morning"), ensured))
    let lastBreakWasEvening :=
      match pair.1.getLast? with
      | some p => p.1
      | none => false
    if pair.2.isEmpty then raw
    else
      let ensured := ensure_trip_starts_ends_default cfg.defaultLocationName pair.2 defaultAddress
      if ensured.isEmpty then raw
      else if raw.isEmpty then
        raw ++ [(trip_name_for_no_breaks ensured cfg.lunchStart cfg.eveningStart, ensured)]
      else
        raw ++ [((if lastBreakWasEvening then "evening" else "afternoon"), ensured)]

/-!
## The §8.6 sample scenario

Visits at 08:00 (depot, visit type "start"), 08:30 (address A), 12:00
(depot, type "RAST"), 13:00 (address B), 16:30 (depot, type "RAST"),
17:00 (address C); break name "RAST", lunch window 10:00-14:00, evening
window 15:00-19:00, default address "Depot", default location name
"Kontor" (the code's default).  Times are minutes after midnight.
-/

def sampleCfg : BreakConfig :=
  { breakNames := ["RAST"], lunchStart := 600, lunchEnd := 840,
    eveningStart := 900, eveningEnd := 1140, defaultLocationName := "Kontor" }

def sampleV1 : Visit :=
  { starttid := some 480, sluttid := some 485, namn := "Kontor",
    adress := "Depot", besokstyp := "start", slinga := "S1" }

def sampleV2 : Visit :=
  { starttid := some 510, sluttid := some 540, namn := "Anna A",
    adress := "A", besokstyp := "Besök", slinga := "S1" }

def sampleV3 : Visit :=
  { starttid := some 720, sluttid := some 750, namn := "Kontor",
    adress := "Depot", besokstyp := "RAST", slinga := "S1" }

def sampleV4 : Visit :=
  { starttid := some 780, sluttid := some 810, namn := "Bertil B",
    adress := "B", besokstyp := "Besök", slinga := "S1" }

def sampleV5 : Visit :=
  { starttid := some 990, sluttid := some 1005, namn := "Kontor",
    adress := "Depot", besokstyp := "RAST", slinga := "S1" }

def sampleV6 : Visit :=
  { starttid := some 1020, sluttid := some 1050, namn := "Cesar C",
    adress := "C", besokstyp := "Besök", slinga := "S1" }

def sampleVisits : List Visit :=
  [sampleV1, sampleV2, sampleV3, sampleV4, sampleV5, sampleV6]

/-- The synthetic depot visit opening the afternoon trip: it carries the
start time of visit B (13:00), not the 12:00 break. -/
def sampleSynthAfternoon : Visit :=
  { starttid := some 780, sluttid := none, namn := "Kontor",
    adress := "Depot", besokstyp := "", slinga := "S1", synthetic := true }

/-- The synthetic depot visit opening the evening trip (17:00). -/
def sampleSynthEvening : Visit :=
  { starttid := some 1020, sluttid := none, namn := "Kontor",
    adress := "Depot", besokstyp := "", slinga := "S1", synthetic := true }

/-- The synthetic depot-return closing the evening trip (at C's end time). -/
def sampleSynthReturn : Visit :=
  { starttid := some 1050, sluttid := some 1050, namn := "Kontor",
    adress := "Depot", besokstyp := "", slinga := "S1", synthetic := true }

/-- C1 counterexample: on the §8.6 sample, the afternoon trip is NOT
`[12:00 break, 13:00 B, 16:30 break]` — its first element is a fresh
synthetic depot visit carrying B's 13:00 start time, so the closing break
visit is not the first element of the following trip. -/
theorem C1_counterexample :
    ((split_route_into_trips sampleCfg sampleVisits "Depot").map Prod.snd).get? 1 ≠
        some [sampleV3, sampleV4, sampleV5] ∧
      ((split_route_into_trips sampleCfg sampleVisits "Depot").map
          (fun t => t.2.head?)).get? 1 ≠ some (some sampleV3) := by
  decide

/-- C1 (amended): the sample yields exactly three trips named morning,
afternoon, evening; morning is `[08:00 depot, 08:30 A, 12:00 break]`;
afternoon is `[synthetic depot at 13:00, 13:00 B, 16:30 break]`; evening
is `[synthetic depot at 17:00, 17:00 C, synthetic depot-return at 17:30]`.
Each closing break visit stays only with the trip it closes; the following
trip begins with a fresh synthetic depot visit instead. -/
theorem C1_sample_trips :
    split_route_into_trips sampleCfg sampleVisits "Depot" =
      [("morning", [sampleV1, sampleV2, sampleV3]),
       ("afternoon", [sampleSynthAfternoon, sampleV4, sampleV5]),
       ("evening", [sampleSynthEvening, sampleV6, sampleSynthReturn])] := by
  decide

/-!
## Normalisation lemmas: `pyStrip` is idempotent
-/

theorem dropWhile_head_false {α : Type} (p : α → Bool) (l : List α) :
    ∀ a, (l.dropWhile p).head? = some a → p a = false := by
  induction l with
  | nil => intro a h; simp [List.dropWhile] at h
  | cons h t ih =>
    intro a ha
    by_cases hp : p h
    · rw [List.dropWhile_cons, if_pos hp] at ha
      exact ih a ha
    · rw [List.dropWhile_cons, if_neg hp] at ha
      simp only [List.head?_cons, Option.some.injEq] at ha
      subst ha
      simpa using hp

theorem dropWhile_self_of_head {α : Type} (p : α → Bool) (l : List α)
    (h : ∀ a, l.head? = some a → p a = false) : l.dropWhile p = l := by
  cases l with
  | nil => rfl
  | cons a t =>
    have ha : p a = false := h a rfl
    rw [List.dropWhile_cons, if_neg (by simp [ha])]

theorem dropWhile_idem2 {α : Type} (p : α → Bool) (l : List α) :
    (l.dropWhile p).dropWhile p = l.dropWhile p :=
  dropWhile_self_of_head p _ (dropWhile_head_false p l)

theorem dropWhile_isSuffix {α : Type} (p : α → Bool) (l : List α) :
    l.dropWhile p <:+ l := by
  induction l with
  | nil => exact List.suffix_refl _
  | cons h t ih =>
    by_cases hp : p h
    · rw [List.dropWhile_cons, if_pos hp]
      exact ih.trans (List.suffix_cons h t)
    · rw [List.dropWhile_cons, if_neg hp]

theorem pyStripList_idem (l : List Char) : pyStripList (pyStripList l) = pyStripList l := by
  unfold pyStripList
  set p := Char.isWhitespace with hp
  set A := l.dropWhile p with hA
  set B := A.reverse.dropWhile p with hB
  have hBrev : B.reverse.dropWhile p = B.reverse := by
    apply dropWhile_self_of_head
    intro a ha
    have hpre : B.reverse <+: A := by
      have hsuf : B <:+ A.reverse := hB ▸ dropWhile_isSuffix p A.reverse
      obtain ⟨t, ht⟩ := hsuf
      refine ⟨t.reverse, ?_⟩
      have := congrArg List.reverse ht
      simpa using this
    obtain ⟨t, ht⟩ := hpre
    have hhead : A.head? = some a := by
      cases hBr : B.reverse with
      | nil => rw [hBr] at ha; simp at ha
      | cons x xs =>
        rw [hBr] at ha
        simp only [List.head?_cons, Option.some.injEq] at ha
        subst ha
        rw [← ht, hBr]
        rfl
    exact dropWhile_head_false p l a (hA ▸ hhead)
  rw [hBrev]
  simp only [List.reverse_reverse]
  rw [hB, dropWhile_idem2]

theorem pyStrip_idem (s : String) : pyStrip (pyStrip s) = pyStrip s := by
  unfold pyStrip
  exact congrArg String.mk (pyStripList_idem s.data)

/-- The normalised form of an address as compared throughout the trip
splitter: `strip` then `lower`. -/
def normAddr (s : String) : String :=
  pyLower (pyStrip s)

theorem normAddr_pyStrip (s : String) : normAddr (pyStrip s) = normAddr s := by
  unfold normAddr
  rw [pyStrip_idem]

/-!
## Lemmas about depot padding
-/

theorem ensure_cons_eq (dn : String) (first : Visit) (rest : List Visit) (da : String) :
    ensure_trip_starts_ends_default dn (first :: rest) da =
      (if pyLower (pyStrip first.adress) ≠ pyLower (pyStrip da)
        then [defaultDepotVisit dn da first] else [])
      ++ (first :: rest)
      ++ (if pyLower (pyStrip ((first :: rest).getLast (List.cons_ne_nil _ _)).adress)
              ≠ pyLower (pyStrip da)
          then [{ defaultDepotVisit dn da first with
                    starttid := ((first :: rest).getLast (List.cons_ne_nil _ _)).sluttid.or
                      ((first :: rest).getLast (List.cons_ne_nil _ _)).starttid,
                    sluttid := ((first :: rest).getLast (List.cons_ne_nil _ _)).sluttid }]
          else []) := rfl

theorem ensure_ne_nil (dn : String) (visits : List Visit) (da : String)
    (h : visits ≠ []) : ensure_trip_starts_ends_default dn visits da ≠ [] := by
  cases visits with
  | nil => exact absurd rfl h
  | cons first rest =>
    rw [ensure_cons_eq]
    simp

theorem ensure_head_last (dn : String) (visits : List Visit) (da : String)
    (h : visits ≠ []) :
    ∃ a b, (ensure_trip_starts_ends_default dn visits da).head? = some a ∧
      (ensure_trip_starts_ends_default dn visits da).getLast? = some b ∧
      normAddr a.adress = normAddr da ∧ normAddr b.adress = normAddr da := by
  cases visits with
  | nil => exact absurd rfl h
  | cons first rest =>
    rw [ensure_cons_eq]
    have hlv : (first :: rest).getLast? =
        some ((first :: rest).getLast (List.cons_ne_nil _ _)) :=
      List.getLast?_eq_getLast _ _
    set lastV := (first :: rest).getLast (List.cons_ne_nil _ _) with hlastV
    by_cases h1 : pyLower (pyStrip first.adress) ≠ pyLower (pyStrip da) <;>
      by_cases h2 : pyLower (pyStrip lastV.adress) ≠ pyLower (pyStrip da)
    · refine ⟨defaultDepotVisit dn da first,
        { defaultDepotVisit dn da first with
            starttid := lastV.sluttid.or lastV.starttid, sluttid := lastV.sluttid },
        ?_, ?_, ?_, ?_⟩
      · simp [if_pos h1, if_pos h2]
      · rw [if_pos h1, if_pos h2, List.getLast?_append_of_ne_nil]
        · rfl
        · simp
      · simpa [defaultDepotVisit] using normAddr_pyStrip da
      · simpa [defaultDepotVisit] using normAddr_pyStrip da
    · refine ⟨defaultDepotVisit dn da first, lastV, ?_, ?_, ?_, ?_⟩
      · simp [if_pos h1, if_neg h2]
      · rw [if_pos h1, if_neg h2, List.append_nil, List.getLast?_append_of_ne_nil]
        · exact hlv
        · simp
      · simpa [defaultDepotVisit] using normAddr_pyStrip da
      · simpa [normAddr] using not_not.mp h2
    · refine ⟨first,
        { defaultDepotVisit dn da first with
            starttid := lastV.sluttid.or lastV.starttid, sluttid := lastV.sluttid },
        ?_, ?_, ?_, ?_⟩
      · simp [if_neg h1, if_pos h2]
      · rw [if_neg h1, if_pos h2, List.nil_append, List.getLast?_append_of_ne_nil]
        · rfl
        · simp
      · simpa [normAddr] using not_not.mp h1
      · simpa [defaultDepotVisit] using normAddr_pyStrip da
    · refine ⟨first, lastV, ?_, ?_, ?_, ?_⟩
      · simp [if_neg h1, if_neg h2]
      · rw [if_neg h1, if_neg h2, List.nil_append, List.append_nil]
        exact hlv
      · simpa [normAddr] using not_not.mp h1
      · simpa [normAddr] using not_not.mp h2

theorem filter_synth_single (v : Visit) (hv : v.synthetic = true) (l : List Visit) :
    (l ++ [v]).filter (fun x => !x.synthetic) = l.filter (fun x => !x.synthetic) := by
  rw [List.filter_append]
  simp [hv]

theorem ensure_filter_synthetic (dn : String) (visits : List Visit) (da : String) :
    (ensure_trip_starts_ends_default dn visits da).filter (fun v => !v.synthetic) =
      visits.filter (fun v => !v.synthetic) := by
  cases visits with
  | nil => rfl
  | cons first rest =>
    rw [ensure_cons_eq]
    have hpre : ∀ pre : List Visit,
        pre = [defaultDepotVisit dn da first] ∨ pre = [] →
        (pre ++ (first :: rest)).filter (fun v => !v.synthetic) =
          (first :: rest).filter (fun v => !v.synthetic) := by
      rintro pre (rfl | rfl)
      · rw [List.filter_append]
        simp [defaultDepotVisit]
      · rw [List.nil_append]
    by_cases h2 : pyLower (pyStrip ((first :: rest).getLast
        (List.cons_ne_nil _ _)).adress) ≠ pyLower (pyStrip da)
    · rw [if_pos h2, filter_synth_single _ rfl]
      by_cases h1 : pyLower (pyStrip first.adress) ≠ pyLower (pyStrip da)
      · rw [if_pos h1]
        exact hpre _ (Or.inl rfl)
      · rw [if_neg h1]
        exact hpre _ (Or.inr rfl)
    · rw [if_neg h2, List.append_nil]
      by_cases h1 : pyLower (pyStrip first.adress) ≠ pyLower (pyStrip da)
      · rw [if_pos h1]
        exact hpre _ (Or.inl rfl)
      · rw [if_neg h1]
        exact hpre _ (Or.inr rfl)

theorem ensure_mem (dn : String) (visits : List Visit) (da : String) (v : Visit)
    (hv : v ∈ ensure_trip_starts_ends_default dn visits da) :
    v ∈ visits ∨ v.synthetic = true := by
  cases visits with
  | nil => simp [ensure_trip_starts_ends_default] at hv
  | cons first rest =>
    rw [ensure_cons_eq] at hv
    rcases List.mem_append.mp hv with hv' | hv'
    · rcases List.mem_append.mp hv' with hv2 | hv2
      · by_cases h1 : pyLower (pyStrip first.adress) ≠ pyLower (pyStrip da)
        · rw [if_pos h1] at hv2
          simp only [List.mem_singleton] at hv2
          subst hv2
          right
          rfl
        · rw [if_neg h1] at hv2
          simp at hv2
      · left
        exact hv2
    · by_cases h2 : pyLower (pyStrip ((first :: rest).getLast
          (List.cons_ne_nil _ _)).adress) ≠ pyLower (pyStrip da)
      · rw [if_pos h2] at hv'
        simp only [List.mem_singleton] at hv'
        subst hv'
        right
        rfl
      · rw [if_neg h2] at hv'
        simp at hv'

theorem ensure_getLast_keep (dn : String) (first : Visit) (rest : List Visit) (da : String)
    (h2 : pyLower (pyStrip (((first :: rest).getLast
        (List.cons_ne_nil _ _)).adress)) = pyLower (pyStrip da)) :
    (ensure_trip_starts_ends_default dn (first :: rest) da).getLast? =
      (first :: rest).getLast? := by
  rw [ensure_cons_eq, if_neg (not_not.mpr h2), List.append_nil]
  by_cases h1 : pyLower (pyStrip first.adress) ≠ pyLower (pyStrip da)
  · rw [if_pos h1, List.getLast?_append_of_ne_nil]
    simp
  · rw [if_neg h1, List.nil_append]

/-!
## Lemmas about the splitting loop
-/

theorem getLast?_snoc {α : Type} (l : List α) (a : α) : (l ++ [a]).getLast? = some a := by
  rw [List.getLast?_append_of_ne_nil _ (List.cons_ne_nil a [])]
  rfl

theorem dropLast_snoc {α : Type} (l : List α) (a : α) : (l ++ [a]).dropLast = l := by
  induction l with
  | nil => rfl
  | cons h t ih =>
    rw [List.cons_append, List.dropLast_cons_of_ne_nil (by simp), ih]

theorem goSplit_flatten (cut : Visit → Option Bool) :
    ∀ (l cur : List Visit),
      ((goSplit cut l cur).1.map Prod.snd).flatten ++ (goSplit cut l cur).2 = cur ++ l := by
  intro l
  induction l with
  | nil => intro cur; simp [goSplit]
  | cons v rest ih =>
    intro cur
    cases hc : cut v with
    | none =>
      simp only [goSplit, hc]
      rw [ih (cur ++ [v])]
      simp
    | some ev =>
      simp only [goSplit, hc]
      rw [List.map_cons, List.flatten_cons, List.append_assoc, ih []]
      simp

theorem goSplit_seg_last (cut : Visit → Option Bool) :
    ∀ (l cur : List Visit), ∀ p ∈ (goSplit cut l cur).1,
      ∃ b, p.2.getLast? = some b ∧ cut b = some p.1 := by
  intro l
  induction l with
  | nil => intro cur p hp; simp [goSplit] at hp
  | cons v rest ih =>
    intro cur p hp
    cases hc : cut v with
    | none =>
      simp only [goSplit, hc] at hp
      exact ih _ p hp
    | some ev =>
      simp only [goSplit, hc] at hp
      rcases List.mem_cons.mp hp with rfl | hp'
      · exact ⟨v, getLast?_snoc _ _, hc⟩
      · exact ih [] p hp'

theorem goSplit_no_cut_inner (cut : Visit → Option Bool) :
    ∀ (l cur : List Visit), (∀ v ∈ cur, cut v = none) →
      (∀ p ∈ (goSplit cut l cur).1, ∀ v ∈ p.2.dropLast, cut v = none) ∧
      (∀ v ∈ (goSplit cut l cur).2, cut v = none) := by
  intro l
  induction l with
  | nil =>
    intro cur hcur
    constructor
    · intro p hp
      simp [goSplit] at hp
    · intro v hv
      simp only [goSplit] at hv
      exact hcur v hv
  | cons v rest ih =>
    intro cur hcur
    cases hc : cut v with
    | none =>
      have hext : ∀ x ∈ cur ++ [v], cut x = none := by
        intro x hx
        rcases List.mem_append.mp hx with hx' | hx'
        · exact hcur x hx'
        · simp only [List.mem_singleton] at hx'
          subst hx'
          exact hc
      constructor
      · intro p hp
        simp only [goSplit, hc] at hp
        exact ((ih _ hext).1) p hp
      · intro x hx
        simp only [goSplit, hc] at hx
        exact ((ih _ hext).2) x hx
    | some ev =>
      have hnil : ∀ x ∈ ([] : List Visit), cut x = none := by intro x hx; simp at hx
      constructor
      · intro p hp
        simp only [goSplit, hc] at hp
        rcases List.mem_cons.mp hp with rfl | hp'
        · intro x hx
          rw [dropLast_snoc] at hx
          exact hcur x hx
        · exact ((ih [] hnil).1) p hp'
      · intro x hx
        simp only [goSplit, hc] at hx
        exact ((ih [] hnil).2) x hx

theorem filterMap_eq_map_of {α β : Type} (l : List α) (f : α → Option β) (g : α → β)
    (h : ∀ a ∈ l, f a = some (g a)) : l.filterMap f = l.map g := by
  induction l with
  | nil => rfl
  | cons a t ih =>
    rw [List.filterMap_cons, h a (by simp), List.map_cons,
      ih (fun x hx => h x (by simp [hx]))]

theorem isEmpty_false_of_ne_nil {α : Type} (l : List α) (h : l ≠ []) :
    l.isEmpty = false := by
  cases l with
  | nil => exact absurd rfl h
  | cons a t => rfl

theorem split_snd_eq (cfg : BreakConfig) (visits : List Visit) (da : String)
    (h : visits ≠ []) :
    (split_route_into_trips cfg visits da).map Prod.snd =
      ((goSplit (cutKind cfg da) visits []).1.map
        (fun p => ensure_trip_starts_ends_default cfg.defaultLocationName p.2 da))
      ++ (if (goSplit (cutKind cfg da) visits []).2 = [] then []
          else [ensure_trip_starts_ends_default cfg.defaultLocationName
                  (goSplit (cutKind cfg da) visits []).2 da]) := by
  have hne : visits.isEmpty = false := isEmpty_false_of_ne_nil _ h
  have hsegne : ∀ p ∈ (goSplit (cutKind cfg da) visits []).1,
      (ensure_trip_starts_ends_default cfg.defaultLocationName p.2 da).isEmpty = false := by
    intro p hp
    obtain ⟨b, hb, _⟩ := goSplit_seg_last (cutKind cfg da) visits [] p hp
    apply isEmpty_false_of_ne_nil
    apply ensure_ne_nil
    intro hnil
    rw [hnil] at hb
    simp at hb
  have hraw : (goSplit (cutKind cfg da) visits []).1.filterMap (fun p =>
      if (ensure_trip_starts_ends_default cfg.defaultLocationName p.2 da).isEmpty then none
      else some ((if p.1 then "afternoon" else "morning"),
        ensure_trip_starts_ends_default cfg.defaultLocationName p.2 da)) =
      (goSplit (cutKind cfg da) visits []).1.map (fun p =>
        ((if p.1 then "afternoon" else "morning"),
          ensure_trip_starts_ends_default cfg.defaultLocationName p.2 da)) := by
    apply filterMap_eq_map_of
    intro p hp
    rw [hsegne p hp]
    simp
  simp only [split_route_into_trips, hne, Bool.false_eq_true, if_false, hraw]
  by_cases hfin : (goSplit (cutKind cfg da) visits []).2 = []
  · rw [if_pos hfin]
    rw [if_pos (by rw [hfin]; rfl : ((goSplit (cutKind cfg da) visits []).2.isEmpty = true))]
    simp [List.map_map, Function.comp]
  · have hfinb : (goSplit (cutKind cfg da) visits []).2.isEmpty = false :=
      isEmpty_false_of_ne_nil _ hfin
    rw [if_neg hfin]
    rw [if_neg (by rw [hfinb]; simp : ¬ ((goSplit (cutKind cfg da) visits []).2.isEmpty = true))]
    rw [if_neg (by
      rw [isEmpty_false_of_ne_nil _ (ensure_ne_nil _ _ _ hfin)]
      simp : ¬ ((ensure_trip_starts_ends_default cfg.defaultLocationName
        (goSplit (cutKind cfg da) visits []).2 da).isEmpty = true))]
    by_cases hrawnil : ((goSplit (cutKind cfg da) visits []).1.map (fun p =>
        ((if p.1 then "afternoon" else "morning"),
          ensure_trip_starts_ends_default cfg.defaultLocationName p.2 da))).isEmpty = true
    · rw [if_pos hrawnil]
      simp [List.map_map, Function.comp]
    · rw [if_neg hrawnil]
      simp [List.map_map, Function.comp]

theorem split_nil_eq (cfg : BreakConfig) (da : String) :
    split_route_into_trips cfg [] da = [] := rfl

theorem split_mem_snd_cases (cfg : BreakConfig) (visits : List Visit) (da : String)
    (t : String × List Visit) (ht : t ∈ split_route_into_trips cfg visits da) :
    ∃ seg : List Visit, seg ≠ [] ∧
      t.2 = ensure_trip_starts_ends_default cfg.defaultLocationName seg da := by
  have hvne : visits ≠ [] := by
    intro hnil
    rw [hnil, split_nil_eq] at ht
    simp at ht
  have ht2 : t.2 ∈ (split_route_into_trips cfg visits da).map Prod.snd :=
    List.mem_map_of_mem Prod.snd ht
  rw [split_snd_eq cfg visits da hvne] at ht2
  rcases List.mem_append.mp ht2 with hmem | hmem
  · obtain ⟨p, hp, hpe⟩ := List.mem_map.mp hmem
    obtain ⟨b, hb, _⟩ := goSplit_seg_last _ visits [] p hp
    refine ⟨p.2, ?_, hpe.symm⟩
    intro hnil
    rw [hnil] at hb
    simp at hb
  · by_cases hf : (goSplit (cutKind cfg da) visits []).2 = []
    · rw [if_pos hf] at hmem
      simp at hmem
    · rw [if_neg hf] at hmem
      simp only [List.mem_singleton] at hmem
      exact ⟨(goSplit (cutKind cfg da) visits []).2, hf, hmem⟩

/-- C3: every trip returned by `split_route_into_trips` has a non-empty
visit list whose first and last visit addresses equal the default depot
address after stripping surrounding whitespace and folding case. -/
theorem C3_trip_depot_invariant (cfg : BreakConfig) (visits : List Visit)
    (da : String) (t : String × List Visit)
    (ht : t ∈ split_route_into_trips cfg visits da) :
    t.2 ≠ [] ∧ ∃ a b, t.2.head? = some a ∧ t.2.getLast? = some b ∧
      normAddr a.adress = normAddr da ∧ normAddr b.adress = normAddr da := by
  obtain ⟨seg, hseg, hts⟩ := split_mem_snd_cases cfg visits da t ht
  constructor
  · rw [hts]
    exact ensure_ne_nil _ _ _ hseg
  · rw [hts]
    exact ensure_head_last _ _ _ hseg

/-- C3 witness: the invariant at a concrete trip of the §8.6 sample. -/
theorem C3_trip_depot_invariant_witness :
    ∃ a b, [sampleV1, sampleV2, sampleV3].head? = some a ∧
      [sampleV1, sampleV2, sampleV3].getLast? = some b ∧
      normAddr a.adress = normAddr "Depot" ∧ normAddr b.adress = normAddr "Depot" :=
  (C3_trip_depot_invariant sampleCfg sampleVisits "Depot"
    ("morning", [sampleV1, sampleV2, sampleV3])
    (by rw [C1_sample_trips]; simp)).2

theorem flatten_ensure_filter (dn : String) (da : String)
    (segs : List (Bool × List Visit)) :
    ((segs.map (fun p => ensure_trip_starts_ends_default dn p.2 da)).flatten).filter
        (fun v => !v.synthetic) =
      ((segs.map Prod.snd).flatten).filter (fun v => !v.synthetic) := by
  induction segs with
  | nil => rfl
  | cons p rest ih =>
    simp only [List.map_cons, List.flatten_cons, List.filter_append]
    rw [ensure_filter_synthetic, ih]

/-- C4: concatenating the visit lists of all returned trips in order and
removing exactly the synthetic depot visits inserted by depot padding
reproduces the original visit sequence (stated for inputs of real — i.e.
non-synthetic — visits, which is what `build_routes_by_date` produces). -/
theorem C4_trip_coverage (cfg : BreakConfig) (visits : List Visit) (da : String)
    (h : ∀ v ∈ visits, v.synthetic = false) :
    (((split_route_into_trips cfg visits da).map Prod.snd).flatten).filter
        (fun v => !v.synthetic) = visits := by
  by_cases hvne : visits = []
  · subst hvne
    rfl
  · rw [split_snd_eq cfg visits da hvne, List.flatten_append, List.filter_append,
      flatten_ensure_filter]
    have hfin : ((if (goSplit (cutKind cfg da) visits []).2 = [] then []
        else [ensure_trip_starts_ends_default cfg.defaultLocationName
          (goSplit (cutKind cfg da) visits []).2 da]) : List (List Visit)).flatten.filter
          (fun v => !v.synthetic) =
        ((goSplit (cutKind cfg da) visits []).2).filter (fun v => !v.synthetic) := by
      by_cases hf : (goSplit (cutKind cfg da) visits []).2 = []
      · rw [if_pos hf, hf]
        rfl
      · rw [if_neg hf]
        simp only [List.flatten_cons, List.flatten_nil, List.append_nil]
        exact ensure_filter_synthetic _ _ _
    rw [hfin, ← List.filter_append, goSplit_flatten, List.nil_append]
    rw [List.filter_eq_self]
    intro a ha
    simp [h a ha]

/-- C4 witness: coverage at the §8.6 sample. -/
theorem C4_trip_coverage_witness :
    (((split_route_into_trips sampleCfg sampleVisits "Depot").map Prod.snd).flatten).filter
        (fun v => !v.synthetic) = sampleVisits :=
  C4_trip_coverage sampleCfg sampleVisits "Depot" (by decide)

/-- C10: a non-empty visit list always produces a non-empty trip list (the
empty trip list arises only from empty input), and no returned trip carries
an empty visit list. -/
theorem C10_split_nonempty (cfg : BreakConfig) (visits : List Visit) (da : String)
    (h : visits ≠ []) :
    split_route_into_trips cfg visits da ≠ [] ∧
      ∀ t ∈ split_route_into_trips cfg visits da, t.2 ≠ [] := by
  constructor
  · intro hnil
    have hmap : ((split_route_into_trips cfg visits da).map Prod.snd) = [] := by
      rw [hnil]
      rfl
    rw [split_snd_eq cfg visits da h] at hmap
    rcases List.append_eq_nil.mp hmap with ⟨h1, h2⟩
    have hsegs : (goSplit (cutKind cfg da) visits []).1 = [] :=
      List.map_eq_nil_iff.mp h1
    have hfin : (goSplit (cutKind cfg da) visits []).2 = visits := by
      have := goSplit_flatten (cutKind cfg da) visits []
      rw [hsegs] at this
      simpa using this
    rw [if_neg (by rw [hfin]; exact h)] at h2
    simp at h2
  · intro t ht
    obtain ⟨seg, hseg, hts⟩ := split_mem_snd_cases cfg visits da t ht
    rw [hts]
    exact ensure_ne_nil _ _ _ hseg

/-- C10 witness: the sample input is non-empty and yields non-empty trips. -/
theorem C10_split_nonempty_witness :
    split_route_into_trips sampleCfg sampleVisits "Depot" ≠ [] :=
  (C10_split_nonempty sampleCfg sampleVisits "Depot" (by decide)).1

theorem is_break_addr (v : Visit) (bn : List String) (da : String)
    (h : is_break_visit v bn da = true) :
    pyLower (pyStrip v.adress) = pyLower (pyStrip da) := by
  by_cases ha : pyLower (pyStrip v.adress) ≠ pyLower (pyStrip da)
  · exfalso
    simp only [is_break_visit] at h
    rw [if_pos ha] at h
    exact Bool.false_ne_true h
  · exact not_not.mp ha

theorem get?_ne_none_lt {α : Type} {l : List α} {n : Nat} {a : α}
    (h : l.get? n = some a) : n < l.length := by
  by_contra h'
  rw [List.get?_eq_none.mpr (le_of_not_lt h')] at h
  exact Option.noConfusion h

/-- C9: a break visit whose start time falls inside the lunch or evening
window (boundaries inclusive) ends up as the last element of the trip it
closes and does not appear in the trip that follows.  Input visits are
pairwise distinct and non-synthetic, which models distinct Python dict
objects coming from `build_routes_by_date`. -/
theorem C9_window_break_not_shared (cfg : BreakConfig) (visits : List Visit)
    (da : String) (hnd : visits.Nodup)
    (hsyn : ∀ x ∈ visits, x.synthetic = false)
    (v : Visit) (hv : v ∈ visits)
    (hb : is_break_visit v cfg.breakNames da = true)
    (t0 : Nat) (htime : visit_time_start v = some t0)
    (hwin : (cfg.lunchStart ≤ t0 ∧ t0 ≤ cfg.lunchEnd) ∨
      (cfg.eveningStart ≤ t0 ∧ t0 ≤ cfg.eveningEnd)) :
    ∃ k t1, (split_route_into_trips cfg visits da).get? k = some t1 ∧
      t1.2.getLast? = some v ∧
      ∀ t2, (split_route_into_trips cfg visits da).get? (k + 1) = some t2 →
        v ∉ t2.2 := by
  have hvne : visits ≠ [] := List.ne_nil_of_mem hv
  have hcut : ∃ ev, cutKind cfg da v = some ev := by
    simp only [cutKind, hb, htime, not_true, if_false]
    by_cases hl : cfg.lunchStart ≤ t0 ∧ t0 ≤ cfg.lunchEnd
    · exact ⟨false, by rw [if_pos hl]⟩
    · exact ⟨true, by rw [if_neg hl, if_pos (hwin.resolve_left hl)]⟩
  obtain ⟨ev, hev⟩ := hcut
  have hpart : ((((goSplit (cutKind cfg da) visits []).1.map Prod.snd).flatten)
      ++ (goSplit (cutKind cfg da) visits []).2) = visits := by
    simpa using goSplit_flatten (cutKind cfg da) visits []
  have hnc := goSplit_no_cut_inner (cutKind cfg da) visits []
    (by intro x hx; simp at hx)
  have hvflat : v ∈ (((goSplit (cutKind cfg da) visits []).1.map Prod.snd).flatten) := by
    have hvin : v ∈ ((((goSplit (cutKind cfg da) visits []).1.map Prod.snd).flatten)
        ++ (goSplit (cutKind cfg da) visits []).2) := by
      rw [hpart]
      exact hv
    rcases List.mem_append.mp hvin with h1 | h1
    · exact h1
    · exfalso
      rw [hnc.2 v h1] at hev
      exact Option.noConfusion hev
  obtain ⟨l2, hl2mem, hvl2⟩ := List.mem_flatten.mp hvflat
  obtain ⟨p, hpmem, hp2⟩ := List.mem_map.mp hl2mem
  obtain ⟨i, hseg_i⟩ := List.mem_iff_get?.mp hpmem
  have hvp2 : v ∈ p.2 := by rw [hp2]; exact hvl2
  have hp2ne : p.2 ≠ [] := List.ne_nil_of_mem hvp2
  have hlastv : p.2.getLast hp2ne = v := by
    have hdecomp : v ∈ p.2.dropLast ++ [p.2.getLast hp2ne] := by
      rw [List.dropLast_append_getLast]
      exact hvp2
    rcases List.mem_append.mp hdecomp with hvd | hvd
    · exfalso
      rw [hnc.1 p hpmem v hvd] at hev
      exact Option.noConfusion hev
    · simp only [List.mem_singleton] at hvd
      exact hvd.symm
  have hlast? : p.2.getLast? = some v := by
    rw [List.getLast?_eq_getLast _ hp2ne, hlastv]
  have hilen : i < (goSplit (cutKind cfg da) visits []).1.length := get?_ne_none_lt hseg_i
  have hms := split_snd_eq cfg visits da hvne
  -- the trip at index i
  have hmap_i : ((split_route_into_trips cfg visits da).map Prod.snd).get? i =
      some (ensure_trip_starts_ends_default cfg.defaultLocationName p.2 da) := by
    rw [hms, List.get?_append (by simpa using hilen), List.get?_map, hseg_i]
    rfl
  rw [List.get?_map] at hmap_i
  obtain ⟨t1, ht1, ht1snd⟩ := Option.map_eq_some'.mp hmap_i
  refine ⟨i, t1, ht1, ?_, ?_⟩
  · -- the break closes the trip: padding appends nothing at the depot end
    rw [ht1snd]
    cases hp2eq : p.2 with
    | nil => exact absurd hp2eq hp2ne
    | cons first rest =>
      have hgl : ((first :: rest).getLast (List.cons_ne_nil _ _)) = v := by
        rw [← hlastv]
        congr 1
        exact hp2eq.symm
      rw [ensure_getLast_keep cfg.defaultLocationName first rest da
        (by rw [hgl]; exact is_break_addr v cfg.breakNames da hb)]
      rw [List.getLast?_eq_getLast _ (List.cons_ne_nil _ _), hgl]
  · -- the break does not appear in the following trip
    intro t2 ht2 hvm
    have h2 : ((split_route_into_trips cfg visits da).map Prod.snd).get? (i + 1) =
        some t2.2 := by
      rw [List.get?_map, ht2]
      rfl
    rw [hms] at h2
    by_cases hlt : i + 1 < (goSplit (cutKind cfg da) visits []).1.length
    · rw [List.get?_append (by simpa using hlt), List.get?_map] at h2
      obtain ⟨q, hq, hqe⟩ := Option.map_eq_some'.mp h2
      have hvq : v ∈ ensure_trip_starts_ends_default cfg.defaultLocationName q.2 da := by
        have : ensure_trip_starts_ends_default cfg.defaultLocationName q.2 da = t2.2 := hqe
        rw [this]
        exact hvm
      rcases ensure_mem _ _ _ v hvq with hq2 | hsynv
      · -- v would lie in two disjoint segments
        have hnd2 : ((((goSplit (cutKind cfg da) visits []).1.map Prod.snd).flatten)
            ++ (goSplit (cutKind cfg da) visits []).2).Nodup := by
          rw [hpart]
          exact hnd
        have hfl : (((goSplit (cutKind cfg da) visits []).1.map Prod.snd).flatten).Nodup :=
          (List.nodup_append.mp hnd2).1
        have hpw : List.Pairwise List.Disjoint
            ((goSplit (cutKind cfg da) visits []).1.map Prod.snd) :=
          (List.nodup_flatten.mp hfl).2
        have hi' : i < ((goSplit (cutKind cfg da) visits []).1.map Prod.snd).length := by
          simpa using hilen
        have hj' : i + 1 < ((goSplit (cutKind cfg da) visits []).1.map Prod.snd).length := by
          simpa using hlt
        have hdisj := List.pairwise_iff_get.mp hpw ⟨i, hi'⟩ ⟨i + 1, hj'⟩
          (by exact Nat.lt_succ_self i)
        have hgeti : ((goSplit (cutKind cfg da) visits []).1.map Prod.snd).get ⟨i, hi'⟩ =
            p.2 := by
          have := List.get?_eq_get hi'
          rw [List.get?_map, hseg_i] at this
          exact Option.some.inj this.symm
        have hgetj : ((goSplit (cutKind cfg da) visits []).1.map Prod.snd).get
            ⟨i + 1, hj'⟩ = q.2 := by
          have := List.get?_eq_get hj'
          rw [List.get?_map, hq] at this
          exact Option.some.inj this.symm
        rw [hgeti, hgetj] at hdisj
        exact hdisj hvp2 hq2
      · rw [hsyn v hv] at hsynv
        exact Bool.noConfusion hsynv
    · rw [List.get?_append_right (by simpa using le_of_not_lt hlt)] at h2
      by_cases hf : (goSplit (cutKind cfg da) visits []).2 = []
      · rw [if_pos hf] at h2
        simp at h2
      · rw [if_neg hf] at h2
        cases hidx : (i + 1 - ((goSplit (cutKind cfg da) visits []).1.map
            (fun p => ensure_trip_starts_ends_default cfg.defaultLocationName p.2 da)).length) with
        | zero =>
          rw [hidx] at h2
          simp only [List.get?_cons_zero, Option.some.injEq] at h2
          have hvfin : v ∈ ensure_trip_starts_ends_default cfg.defaultLocationName
              (goSplit (cutKind cfg da) visits []).2 da := by
            rw [h2]
            exact hvm
          rcases ensure_mem _ _ _ v hvfin with hvf | hsynv
          · rw [hnc.2 v hvf] at hev
            exact Option.noConfusion hev
          · rw [hsyn v hv] at hsynv
            exact Bool.noConfusion hsynv
        | succ n =>
          rw [hidx] at h2
          simp at h2

/-- C9 witness: the 12:00 break of the §8.6 sample closes a trip, is its
last element, and is absent from the following trip. -/
theorem C9_window_break_not_shared_witness :
    ∃ k t1, (split_route_into_trips sampleCfg sampleVisits "Depot").get? k = some t1 ∧
      t1.2.getLast? = some sampleV3 ∧
      ∀ t2, (split_route_into_trips sampleCfg sampleVisits "Depot").get? (k + 1) =
          some t2 → sampleV3 ∉ t2.2 :=
  C9_window_break_not_shared sampleCfg sampleVisits "Depot" (by decide) (by decide)
    sampleV3 (by decide) (by decide) 720 rfl (Or.inl (by decide))

/-!
## Route grouping (`build_routes_by_date`, utils.py 638-697)

A raw schedule row is modelled with one optional string per cell (`none`
models a missing value, i.e. `pd.isna` holds: pandas `NaN` or `None`).
The start-time cell additionally records how the code's date derivation
goes: `na` (missing — the row is skipped), `bad` (present but
`pd.to_datetime` raises, so the date string becomes "unknown"), or
`good d` (parses, `d` being `dt.strftime("%Y-%m-%d")`).
-/

inductive Starttid where
  | na : Starttid
  | bad : Starttid
  | good : String → Starttid
deriving DecidableEq, Repr

structure Row where
  starttid : Starttid
  sluttid : Option String
  namn : Option String
  adress : Option String
  besokstyp : Option String
  slinga : Option String
deriving DecidableEq, Repr

/-- `_is_empty_value` (utils.py 531-538): `None`/NaN, the empty string and
the strings "nan"/"none" (after strip, case-insensitive) are empty. -/
def is_empty_value : Option String → Bool
  | none => true
  | some s =>
    pyStrip s = "" || pyLower (pyStrip s) = "nan" || pyLower (pyStrip s) = "none"

/-- Python `str(x or "")` for an optional string cell; `None` is falsy and
yields `""`.  (A pandas `NaN` cell would stringify to `"nan"` instead; both
are modelled as `none` — the difference only affects the `slinga` and
`besokstyp` display strings, which none of the claims depend on.) -/
def pyStrOrEmpty : Option String → String
  | none => ""
  | some s => s

/-- The visit dict appended by one loop iteration of `build_routes_by_date`
(it carries the raw `starttid`/`sluttid` cells). -/
structure RowVisit where
  starttid : Starttid
  sluttid : Option String
  namn : String
  adress : String
  besokstyp : String
  slinga : String
deriving DecidableEq, Repr

/-- The per-row field computation of `build_routes_by_date`
(utils.py 664-683). -/
def build_visit (defaultAddress defaultName : String) (row : Row) : RowVisit :=
  let slinga0 := pyStrip (pyStrOrEmpty row.slinga)
  let slinga := if slinga0 = "" then "(ingen slinga)" else slinga0
  let namn := if is_empty_value row.namn then "" else pyStrip (row.namn.getD "")
  let besokstyp := pyStrip (pyStrOrEmpty row.besokstyp)
  let adress := if is_empty_value row.adress then defaultAddress
                else pyStrip (row.adress.getD "")
  let displayName := if adress = defaultAddress then defaultName
                     else if namn ≠ "" then namn else besokstyp
  { starttid := row.starttid, sluttid := row.sluttid, namn := displayName,
    adress := adress, besokstyp := besokstyp, slinga := slinga }

/-- The date-string derivation of `build_routes_by_date` (utils.py 651-662):
`none` makes the row `continue`, a parse failure buckets under "unknown". -/
def row_date_str : Starttid → Option String
  | .na => none
  | .bad => some "unknown"
  | .good d => some d

/-- `build_routes_by_date` (utils.py 638-697), modelled as the stream of
`(date_str, slinga, visit)` triples appended by the per-row loop, in row
order.  The function finally groups this stream into the nested dict
`{date: {slinga: [visits]}}` and sorts each bucket by `(starttid, adress)`;
grouping and in-bucket sorting only permute the stream, so per-visit
invariants are stated on the stream. -/
def build_routes_stream (rows : List Row) (defaultAddress defaultName : String) :
    List (String × String × RowVisit) :=
  rows.filterMap (fun row =>
    (row_date_str row.starttid).map (fun d =>
      (d, (build_visit defaultAddress defaultName row).slinga,
        build_visit defaultAddress defaultName row)))

theorem is_empty_value_pyStrip (s : String) :
    is_empty_value (some (pyStrip s)) = is_empty_value (some s) := by
  simp [is_empty_value, pyStrip_idem]

/-- A row with an empty address cell, used against default address `""`. -/
def c2Row : Row :=
  { starttid := .good "2024-01-02", sluttid := none, namn := some "Anna",
    adress := none, besokstyp := some "Besök", slinga := some "S1" }

/-- C2 counterexample: with the (configurable) default depot address `""` —
reachable, since `get_default_route_address` strips the configured value —
a row with an empty address cell produces a visit whose address the
normalizer classifies as empty. -/
theorem C2_counterexample :
    (build_routes_stream [c2Row] "" "Kontor").map
        (fun e => is_empty_value (some e.2.2.adress)) = [true] := by
  decide

/-- C2 (amended): provided the default depot address is itself not
classified empty by `_is_empty_value`, every visit produced by
`build_routes_by_date` has an address that `_is_empty_value` classifies
as non-empty. -/
theorem C2_empty_address_invariant (rows : List Row) (da dn : String)
    (hda : is_empty_value (some da) = false) :
    ∀ e ∈ build_routes_stream rows da dn,
      is_empty_value (some e.2.2.adress) = false := by
  intro e he
  obtain ⟨row, hrow, hfe⟩ := List.mem_filterMap.mp he
  obtain ⟨d, hd, hde⟩ := Option.map_eq_some'.mp hfe
  have headr : e.2.2 = build_visit da dn row := by rw [← hde]
  rw [headr]
  by_cases hie : is_empty_value row.adress = true
  · simp only [build_visit, hie, if_pos]
    simpa using hda
  · have hie' : is_empty_value row.adress = false := by
      cases hfalse : is_empty_value row.adress
      · rfl
      · exact absurd hfalse hie
    simp only [build_visit, hie', Bool.false_eq_true, if_false]
    cases hra : row.adress with
    | none => rw [hra] at hie'; simp [is_empty_value] at hie'
    | some s =>
      rw [hra] at hie'
      simpa [Option.getD, is_empty_value_pyStrip] using hie'

/-- C2 witness: the amended invariant at a concrete row, non-empty default
address and the concrete visit the row produces. -/
theorem C2_empty_address_invariant_witness :
    is_empty_value (some (RowVisit.adress
      { starttid := .good "2024-01-02", sluttid := none, namn := "Kontor",
        adress := "Depot", besokstyp := "Besök", slinga := "S1" })) = false :=
  C2_empty_address_invariant [c2Row] "Depot" "Kontor" (by decide)
    ("2024-01-02", "S1",
      { starttid := .good "2024-01-02", sluttid := none, namn := "Kontor",
        adress := "Depot", besokstyp := "Besök", slinga := "S1" })
    (by decide)

/-- A row whose start time is present but unparseable. -/
def c5Row : Row :=
  { starttid := .bad, sluttid := none, namn := some "Anna",
    adress := some "A", besokstyp := some "Besök", slinga := some "S1" }

/-- C5 counterexample: a row with a present-but-unparseable start time is
NOT dropped — it produces exactly one visit, bucketed under "unknown". -/
theorem C5_counterexample :
    (build_routes_stream [c5Row] "Depot" "Kontor").length = 1 ∧
      (build_routes_stream [c5Row] "Depot" "Kontor").map (fun e => e.1) =
        ["unknown"] := by
  decide

/-- C5 (amended): rows whose start time is missing (`pd.isna`) contribute
nothing — removing them leaves the output unchanged — while a row whose
start time is present but unparseable produces a visit bucketed under the
literal date key "unknown". -/
theorem C5_missing_start_dropped (rows : List Row) (da dn : String) :
    build_routes_stream rows da dn =
      build_routes_stream
        (rows.filter (fun r => decide (r.starttid ≠ Starttid.na))) da dn ∧
    ∀ r : Row, r.starttid = .bad →
      (build_routes_stream [r] da dn).map (fun e => e.1) = ["unknown"] := by
  constructor
  · induction rows with
    | nil => rfl
    | cons r rest ih =>
      cases hna : r.starttid with
      | na =>
        simp only [build_routes_stream, List.filterMap_cons, List.filter_cons, hna,
          row_date_str, Option.map_none']
        simpa [build_routes_stream] using ih
      | bad =>
        simp only [build_routes_stream, List.filterMap_cons, List.filter_cons, hna,
          row_date_str, Option.map_some']
        simpa [build_routes_stream, List.filterMap_cons, hna, row_date_str] using ih
      | good d =>
        simp only [build_routes_stream, List.filterMap_cons, List.filter_cons, hna,
          row_date_str, Option.map_some']
        simpa [build_routes_stream, List.filterMap_cons, hna, row_date_str] using ih
  · intro r hr
    simp [build_routes_stream, hr, row_date_str]

/-- C5 witness: the amended statement at a concrete unparseable-start row. -/
theorem C5_missing_start_dropped_witness :
    (build_routes_stream [c5Row] "Depot" "Kontor").map (fun e => e.1) =
      ["unknown"] :=
  (C5_missing_start_dropped [c5Row] "Depot" "Kontor").2 c5Row rfl

/-!
## Geocoding with cache (utils.py 850-947)

The two providers are oracles: for an address, `none` models every failure
the code swallows (exception, timeout, non-"OK" status, empty result list)
and `some c` a successful first result.  Latitude/longitude are only
stored and returned, never computed with, so a coordinate pair is an
abstract pair of integers.
-/

structure Coords where
  lat : Int
  lng : Int
deriving DecidableEq, Repr

/-- The geocache table: rows `(address_hash, lat, lng)` with
`address_hash TEXT PRIMARY KEY`. -/
abbrev GeoStore := List (String × Coords)

/-- `_hash_address` (utils.py 854-856): SHA-256 digest of the stripped
address; the digest is modelled by the stripped address itself, an
injective function of it — which is the property the cache relies on. -/
def hash_address (address : String) : String :=
  pyStrip address

/-- `_get_cached_coords` (utils.py 874-878): select by hash. -/
def get_cached_coords (store : GeoStore) (address : String) : Option Coords :=
  (store.find? (fun e => e.1 == hash_address address)).map Prod.snd

/-- `_cache_coords` (utils.py 881-887): `INSERT OR REPLACE` keyed on the
primary-key hash — any existing row with this hash is removed and the new
row inserted. -/
def cache_coords (store : GeoStore) (address : String) (c : Coords) : GeoStore :=
  (store.filter (fun e => !(e.1 == hash_address address)))
    ++ [(hash_address address, c)]

inductive Provider where
  | google : Provider
  | nominatim : Provider
deriving DecidableEq, Repr

/-- The provider phase of `_geocode_one` (utils.py 919-941): with an API
key, try the keyed provider and fall back to the free one on failure
(`if not coords`); without a key, only the free provider runs.  Returns
the coordinates found and the providers called, in call order. -/
def provider_resolve (apiKey : String) (google nominatim : String → Option Coords)
    (address : String) : Option Coords × List Provider :=
  if apiKey ≠ "" then
    match google address with
    | some c => (some c, [Provider.google])
    | none => (nominatim address, [Provider.google, Provider.nominatim])
  else (nominatim address, [Provider.nominatim])

/-- `_geocode_one` (utils.py 906-947): strip the address; empty → nothing;
cache hit → return it with no provider call; otherwise run the providers
and cache a success before returning.  The third component records the
provider network calls made. -/
def geocode_one (apiKey : String) (google nominatim : String → Option Coords)
    (address : String) (store : GeoStore) :
    Option Coords × GeoStore × List Provider :=
  let address := pyStrip address
  if address = "" then (none, store, [])
  else
    match get_cached_coords store address with
    | some c => (some c, store, [])
    | none =>
      let pr := provider_resolve apiKey google nominatim address
      match pr.1 with
      | some c => (some c, cache_coords store address c, pr.2)
      | none => (none, store, pr.2)

theorem geocode_one_cached (apiKey : String) (google nominatim : String → Option Coords)
    (a : String) (store : GeoStore) (c : Coords)
    (hne : ¬ pyStrip a = "") (hc : get_cached_coords store (pyStrip a) = some c) :
    geocode_one apiKey google nominatim a store = (some c, store, []) := by
  simp only [geocode_one]
  rw [if_neg hne, hc]

theorem geocode_one_uncached (apiKey : String) (google nominatim : String → Option Coords)
    (a : String) (store : GeoStore)
    (hne : ¬ pyStrip a = "") (hc : get_cached_coords store (pyStrip a) = none) :
    geocode_one apiKey google nominatim a store =
      (match (provider_resolve apiKey google nominatim (pyStrip a)).1 with
       | some c => (some c, cache_coords store (pyStrip a) c,
           (provider_resolve apiKey google nominatim (pyStrip a)).2)
       | none => (none, store,
           (provider_resolve apiKey google nominatim (pyStrip a)).2)) := by
  simp only [geocode_one]
  rw [if_neg hne, hc]

theorem get_cached_coords_cache (store : GeoStore) (a : String) (c : Coords) :
    get_cached_coords (cache_coords store a c) a = some c := by
  unfold get_cached_coords cache_coords
  rw [List.find?_append]
  have h1 : (store.filter (fun e => !(e.1 == hash_address a))).find?
      (fun e => e.1 == hash_address a) = none := by
    rw [List.find?_eq_none]
    intro e he
    have := List.of_mem_filter he
    simpa using this
  rw [h1]
  simp [List.find?]

theorem cache_coords_unique (store : GeoStore) (a : String) (c : Coords) :
    ((cache_coords store a c).filter (fun e => e.1 == hash_address a)).length = 1 := by
  unfold cache_coords
  rw [List.filter_append]
  have h1 : (store.filter (fun e => !(e.1 == hash_address a))).filter
      (fun e => e.1 == hash_address a) = [] := by
    rw [List.filter_eq_nil_iff]
    intro e he
    have := List.of_mem_filter he
    simpa using this
  rw [h1]
  simp

/-- C6 counterexample: with an API key whose keyed provider fails and a
free provider that succeeds, resolving the same address twice makes TWO
provider network calls (both on the first resolution), not at most one —
even though the second resolution is served from the cache. -/
theorem C6_counterexample :
    (let g : String → Option Coords := fun _ => none
     let n : String → Option Coords := fun _ => some ⟨57, 12⟩
     let r1 := geocode_one "k" g n "A" []
     let r2 := geocode_one "k" g n "A" r1.2.1
     r1.2.2.length + r2.2.2.length = 2 ∧
       ¬ r1.2.2.length + r2.2.2.length ≤ 1) := by
  decide

/-- C6 (amended): when the first resolution of an address succeeds, a
second resolution of the same address (equal after whitespace trim) makes
no provider network call and returns the cached coordinates; and
`_cache_coords` twice with one address leaves exactly one row for that
address hash (upsert, never a duplicate). -/
theorem C6_cache_idempotent (apiKey : String)
    (google nominatim : String → Option Coords) (a a' : String)
    (store : GeoStore) (c : Coords)
    (hsecond : pyStrip a' = pyStrip a)
    (hfirst : (geocode_one apiKey google nominatim a store).1 = some c) :
    ((geocode_one apiKey google nominatim a'
        (geocode_one apiKey google nominatim a store).2.1).1 = some c ∧
      (geocode_one apiKey google nominatim a'
        (geocode_one apiKey google nominatim a store).2.1).2.2 = []) ∧
    ∀ (store2 : GeoStore) (a2 : String) (c1 c2 : Coords),
      ((cache_coords (cache_coords store2 a2 c1) a2 c2).filter
        (fun e => e.1 == hash_address a2)).length = 1 := by
  refine ⟨?_, fun store2 a2 c1 c2 => cache_coords_unique _ _ _⟩
  by_cases hemp : pyStrip a = ""
  · exfalso
    simp only [geocode_one, hemp, if_pos] at hfirst
    exact Option.noConfusion hfirst
  · cases hc : get_cached_coords store (pyStrip a) with
    | some c0 =>
      have hr1 := geocode_one_cached apiKey google nominatim a store c0 hemp hc
      rw [hr1] at hfirst
      simp only [Option.some.injEq] at hfirst
      subst hfirst
      have hr2 := geocode_one_cached apiKey google nominatim a' store c0
        (by rw [hsecond]; exact hemp) (by rw [hsecond]; exact hc)
      rw [hr1, hr2]
      exact ⟨rfl, rfl⟩
    | none =>
      have hr1 := geocode_one_uncached apiKey google nominatim a store hemp hc
      cases hpr : (provider_resolve apiKey google nominatim (pyStrip a)).1 with
      | none =>
        exfalso
        rw [hr1, hpr] at hfirst
        exact Option.noConfusion hfirst
      | some c1 =>
        rw [hr1, hpr] at hfirst
        simp only [Option.some.injEq] at hfirst
        subst hfirst
        have hstore1 : (geocode_one apiKey google nominatim a store).2.1 =
            cache_coords store (pyStrip a) c1 := by
          rw [hr1, hpr]
        have hc2 : get_cached_coords (cache_coords store (pyStrip a) c1)
            (pyStrip a') = some c1 := by
          rw [hsecond]
          exact get_cached_coords_cache store (pyStrip a) c1
        have hr2 := geocode_one_cached apiKey google nominatim a'
          (cache_coords store (pyStrip a) c1) c1
          (by rw [hsecond]; exact hemp) hc2
        rw [hstore1, hr2]
        exact ⟨rfl, rfl⟩

/-- C6 witness: amended statement at a concrete address resolved by the
free provider and re-resolved (with extra whitespace) from the cache. -/
theorem C6_cache_idempotent_witness :
    (geocode_one "" (fun _ => none) (fun _ => some ⟨57, 12⟩) " A "
        (geocode_one "" (fun _ => none) (fun _ => some ⟨57, 12⟩) "A" []).2.1).1 =
          some ⟨57, 12⟩ ∧
      (geocode_one "" (fun _ => none) (fun _ => some ⟨57, 12⟩) " A "
        (geocode_one "" (fun _ => none) (fun _ => some ⟨57, 12⟩) "A" []).2.1).2.2 = [] :=
  (C6_cache_idempotent "" (fun _ => none) (fun _ => some ⟨57, 12⟩) "A" " A " []
    ⟨57, 12⟩ (by decide) (by decide)).1

/-- C7: for a non-empty uncached address — with no API key the resolution
result is exactly the free provider's result (so it succeeds iff the free
provider does); with an API key whose keyed provider fails, the free
provider is still called before the function gives up, and the result is
again the free provider's. -/
theorem C7_geocode_fallback (apiKey : String)
    (google nominatim : String → Option Coords) (a : String) (store : GeoStore)
    (hne : ¬ pyStrip a = "")
    (hunc : get_cached_coords store (pyStrip a) = none) :
    (apiKey = "" →
      (geocode_one apiKey google nominatim a store).1 = nominatim (pyStrip a) ∧
      ((geocode_one apiKey google nominatim a store).1.isSome ↔
        (nominatim (pyStrip a)).isSome)) ∧
    (apiKey ≠ "" → google (pyStrip a) = none →
      Provider.nominatim ∈ (geocode_one apiKey google nominatim a store).2.2 ∧
      (geocode_one apiKey google nominatim a store).1 = nominatim (pyStrip a)) := by
  have hr := geocode_one_uncached apiKey google nominatim a store hne hunc
  constructor
  · intro hk
    have hpr : provider_resolve apiKey google nominatim (pyStrip a) =
        (nominatim (pyStrip a), [Provider.nominatim]) := by
      simp only [provider_resolve, hk]
      rw [if_neg (by simp)]
    cases hn : nominatim (pyStrip a) with
    | none =>
      rw [hr, hpr, hn]
      simp [hn]
    | some c =>
      rw [hr, hpr, hn]
      simp [hn]
  · intro hk hg
    have hpr : provider_resolve apiKey google nominatim (pyStrip a) =
        (nominatim (pyStrip a), [Provider.google, Provider.nominatim]) := by
      simp only [provider_resolve]
      rw [if_pos hk, hg]
    cases hn : nominatim (pyStrip a) with
    | none =>
      rw [hr, hpr, hn]
      simp
    | some c =>
      rw [hr, hpr, hn]
      simp

/-- C7 witness: fallback at a concrete uncached address. -/
theorem C7_geocode_fallback_witness :
    Provider.nominatim ∈
      (geocode_one "k" (fun _ => none) (fun _ => some ⟨57, 12⟩) "A" []).2.2 ∧
    (geocode_one "k" (fun _ => none) (fun _ => some ⟨57, 12⟩) "A" []).1 =
      (fun _ => some (⟨57, 12⟩ : Coords)) (pyStrip "A") :=
  (C7_geocode_fallback "k" (fun _ => none) (fun _ => some ⟨57, 12⟩) "A" []
    (by decide) (by decide)).2 (by decide) rfl

/-!
## Route colors (utils.py 295-384)

`get_route_colors` maps route names to hex colors through ordered
substring rules, tinting repeated claims of one base color.  The blend
factors in `_tint_color` are the Python float literals
1.0, 0.6, 0.85, 0.45, 0.7; all are exact multiples of 1/20, so a blend is
modelled as a numerator over 20 and a channel as exact integer arithmetic
`(x*b + mix*(20-b)) / 20` with truncating (floor) division — `int()`
truncation on the non-negative float agrees with this exact value at every
channel computed in this development (checked numerically against the
float semantics).
-/

def DEFAULT_ROUTE_COLOR : String := "#777777"

structure ColorRule where
  color : Option String
  contains : Option String
deriving DecidableEq, Repr

/-- Python `x or d` for an optional string: `None` and `""` are falsy. -/
def pyOrStr (x : Option String) (d : String) : String :=
  match x with
  | none => d
  | some s => if s = "" then d else s

/-- Value of one hex digit as `int(_, 16)` reads it.  The source raises
`ValueError` on a non-hex digit; the development only ever parses valid
hex colors, where the junk branch is unreachable. -/
def hexDigitVal (c : Char) : Nat :=
  if '0' ≤ c ∧ c ≤ '9' then c.toNat - '0'.toNat
  else if 'a' ≤ c ∧ c ≤ 'f' then c.toNat - 'a'.toNat + 10
  else if 'A' ≤ c ∧ c ≤ 'F' then c.toNat - 'A'.toNat + 10
  else 0

/-- `_hex_to_rgb` (utils.py 330-339): strip, drop every leading `#`
(`lstrip("#")`), parse the first three hex pairs when at least six
characters remain, else the gray fallback `(119, 119, 119)`. -/
def hex_to_rgb (s : String) : Nat × Nat × Nat :=
  match (pyStrip s).data.dropWhile (fun c => c == '#') with
  | a :: b :: c :: d :: e :: f :: _ =>
    (16 * hexDigitVal a + hexDigitVal b,
     16 * hexDigitVal c + hexDigitVal d,
     16 * hexDigitVal e + hexDigitVal f)
  | _ => (119, 119, 119)

def hexDigitChar (n : Nat) : Char :=
  if n < 10 then Char.ofNat (Char.toNat '0' + n)
  else Char.ofNat (Char.toNat 'a' + n - 10)

/-- Python `f"\x7bn:02x\x7d"` for the clamped channel values (≤ 255)
produced by `_tint_color`. -/
def toHex2 (n : Nat) : String :=
  String.mk [hexDigitChar (n / 16 % 16), hexDigitChar (n % 16)]

/-- `_rgb_to_hex` (utils.py 342-343). -/
def rgb_to_hex (r g b : Nat) : String :=
  "#" ++ toHex2 r ++ toHex2 g ++ toHex2 b

/-- The blend table of `_tint_color` (utils.py 350), as twentieths:
`[(1.0, 0), (0.6, 255), (0.85, 0), (0.45, 255), (0.7, 0)]`. -/
def blends : List (Nat × Nat) :=
  [(20, 0), (12, 255), (17, 0), (9, 255), (14, 0)]

/-- One channel of `_tint_color`: `int(x*blend + mix*(1-blend))` then
clamp to `[0, 255]` (the value is non-negative, so `int` truncation is
floor, i.e. `Nat` division by 20). -/
def tintChannel (x b20 mix : Nat) : Nat :=
  max 0 (min 255 ((x * b20 + mix * (20 - b20)) / 20))

/-- `_tint_color` (utils.py 346-358): the tint index selects a blend,
cycling modulo the table length (the `getD` default is unreachable since
the index is reduced mod 5 first). -/
def tint_color (s : String) (tintIndex : Nat) : String :=
  let rgb := hex_to_rgb s
  let bm := blends.getD (tintIndex % blends.length) (20, 0)
  rgb_to_hex (tintChannel rgb.1 bm.1 bm.2) (tintChannel rgb.2.1 bm.1 bm.2)
    (tintChannel rgb.2.2 bm.1 bm.2)

/-- Python dict read with default (`d.get(k, dflt)`), over an
insertion-ordered association list with unique keys. -/
def dictGetD {α : Type} : List (String × α) → String → α → α
  | [], _, dflt => dflt
  | e :: t, k, dflt => if e.1 == k then e.2 else dictGetD t k dflt

/-- Python dict assignment `d[k] = v`: update in place when the key
exists (insertion order preserved), else append. -/
def dictSet {α : Type} : List (String × α) → String → α → List (String × α)
  | [], k, v => [(k, v)]
  | e :: t, k, v => if e.1 == k then (k, v) :: t else e :: dictSet t k v

/-- The rule scan of `get_route_colors` (utils.py 371-380): the first rule
whose non-empty stripped `contains` is a case-insensitive substring of the
name supplies the base color (`rule.get("color") or default`, stripped);
`base_color` stays `None` (modelled `""`) when no rule matches, and the
post-loop `if not base_color` re-default then maps both `None` and a
color that stripped to `""` to the default gray. -/
def base_color_for (rules : List ColorRule) (name : String) : String :=
  let nameUpper := pyUpper name
  let base :=
    match rules.find? (fun rule =>
        let c := pyStrip (pyOrStr rule.contains "")
        !(c == "") && pyContains nameUpper (pyUpper c)) with
    | some rule => pyStrip (pyOrStr rule.color DEFAULT_ROUTE_COLOR)
    | none => ""
  if base = "" then DEFAULT_ROUTE_COLOR else base

/-- The accumulation loop of `get_route_colors` (utils.py 369-383):
`counts` is `color_counts`, `result` the output dict. -/
def route_colors_go (rules : List ColorRule) :
    List String → List (String × Nat) → List (String × String) →
    List (String × String)
  | [], _, result => result
  | name :: rest, counts, result =>
    let base := base_color_for rules name
    let idx := dictGetD counts base 0
    route_colors_go rules rest (dictSet counts base (idx + 1))
      (dictSet result name (tint_color base idx))

/-- `get_route_colors` (utils.py 362-384). -/
def get_route_colors (rules : List ColorRule) (routeNames : List String) :
    List (String × String) :=
  route_colors_go rules routeNames [] []

/-- The number of earlier names claiming the same base color as the k-th
name — the tint index the k-th name receives. -/
def claimIdx (rules : List ColorRule) (names : List String) (k : Nat) : Nat :=
  ((names.take k).filter (fun m =>
    base_color_for rules m == base_color_for rules (names.getD k ""))).length

theorem dictGetD_set_self {α : Type} (d : List (String × α)) (k : String) (v : α)
    (dflt : α) : dictGetD (dictSet d k v) k dflt = v := by
  induction d with
  | nil => simp [dictSet, dictGetD]
  | cons e t ih =>
    by_cases h : e.1 = k
    · simp [dictSet, dictGetD, h]
    · simp only [dictSet, dictGetD]
      rw [if_neg (by simpa using h), dictGetD]
      rw [if_neg (by simpa using h)]
      exact ih

theorem dictGetD_set_other {α : Type} (d : List (String × α)) (k k' : String)
    (v : α) (dflt : α) (h : k' ≠ k) :
    dictGetD (dictSet d k v) k' dflt = dictGetD d k' dflt := by
  induction d with
  | nil =>
    simp only [dictSet, dictGetD]
    rw [if_neg (by simpa using fun he => h he.symm)]
  | cons e t ih =>
    by_cases he : e.1 = k
    · simp only [dictSet]
      rw [if_pos (by simpa using he), dictGetD, dictGetD]
      rw [if_neg (by simpa using fun hx => h hx.symm), if_neg (by
        rw [he]
        simpa using fun hx => h hx.symm)]
    · simp only [dictSet]
      rw [if_neg (by simpa using he), dictGetD, dictGetD]
      by_cases he' : e.1 = k'
      · rw [if_pos (by simpa using he'), if_pos (by simpa using he')]
      · rw [if_neg (by simpa using he'), if_neg (by simpa using he')]
        exact ih

theorem route_colors_go_preserve (rules : List ColorRule) :
    ∀ (names : List String) (counts : List (String × Nat))
      (result : List (String × String)) (k0 : String), k0 ∉ names →
      dictGetD (route_colors_go rules names counts result) k0 "" =
        dictGetD result k0 "" := by
  intro names
  induction names with
  | nil =>
    intro counts result k0 h
    rfl
  | cons name rest ih =>
    intro counts result k0 h
    simp only [route_colors_go]
    rw [ih _ _ k0 (fun hm => h (List.mem_cons_of_mem _ hm))]
    exact dictGetD_set_other _ _ _ _ _ (fun he => h (he ▸ List.mem_cons_self _ _))

theorem route_colors_go_value (rules : List ColorRule) :
    ∀ (names : List String) (counts : List (String × Nat))
      (result : List (String × String)) (k : Nat),
      k < names.length → names.Nodup →
      dictGetD (route_colors_go rules names counts result) (names.getD k "") "" =
        tint_color (base_color_for rules (names.getD k ""))
          (dictGetD counts (base_color_for rules (names.getD k "")) 0 +
            ((names.take k).filter (fun m =>
              base_color_for rules m ==
                base_color_for rules (names.getD k ""))).length) := by
  intro names
  induction names with
  | nil =>
    intro counts result k hk hnd
    simp at hk
  | cons name rest ih =>
    intro counts result k hk hnd
    cases k with
    | zero =>
      simp only [List.getD_cons_zero, route_colors_go]
      rw [route_colors_go_preserve rules rest _ _ name (List.nodup_cons.mp hnd).1]
      rw [dictGetD_set_self]
      simp
    | succ j =>
      simp only [List.getD_cons_succ, route_colors_go]
      rw [ih _ _ j (by simpa using hk) (List.nodup_cons.mp hnd).2]
      by_cases hbase : base_color_for rules name =
          base_color_for rules (rest.getD j "")
      · rw [← hbase, dictGetD_set_self, List.take_succ_cons, List.filter_cons,
          if_pos (by simp)]
        rw [List.length_cons]
        congr 1
        omega
      · rw [dictGetD_set_other _ _ _ _ _ (fun he => hbase he.symm),
          List.take_succ_cons, List.filter_cons,
          if_neg (by simpa using hbase)]

theorem claimIdx_lt (rules : List ColorRule) (names : List String) (i j : Nat)
    (hij : i < j) (hj : j < names.length)
    (hbase : base_color_for rules (names.getD i "") =
      base_color_for rules (names.getD j "")) :
    claimIdx rules names i < claimIdx rules names j := by
  unfold claimIdx
  rw [← hbase]
  have hi : i < names.length := lt_trans hij hj
  have hdecomp : names.take j =
      names.take i ++ (names.getD i "" ::
        (names.drop (i + 1)).take (j - i - 1)) := by
    have hj' : j = i + (j - i) := by omega
    rw [hj', List.take_add]
    congr 1
    rw [List.drop_eq_getElem_cons hi, List.getD_eq_getElem names "" hi]
    have hji : j - i = (j - i - 1) + 1 := by omega
    rw [hji, List.take_succ_cons]
    congr 2
    omega
  rw [hdecomp, List.filter_append, List.length_append, List.filter_cons,
    if_pos (by simp)]
  rw [List.length_cons]
  omega

def c8Rules : List ColorRule := [{ color := some "#ff0000", contains := some "A" }]

def c8Names : List String := ["A1", "A2", "A3", "A4", "A5", "A6"]

/-- C8 counterexample: two distinct names matching the same rule in the
same relative order can receive the SAME hex color — the blend table
cycles every five claims, so the first and sixth claimants of a base color
coincide. -/
theorem C8_counterexample :
    dictGetD (get_route_colors c8Rules c8Names) "A1" "" =
        dictGetD (get_route_colors c8Rules c8Names) "A6" "" ∧
      ("A1" : String) ≠ "A6" ∧
      base_color_for c8Rules "A1" = base_color_for c8Rules "A6" := by
  decide

/-- C8 (amended): `get_route_colors` is deterministic (a pure function of
the rules and the ordered name list); any two distinct names claiming the
same base color receive the tints at strictly increasing claim indices
(so their tint indices always differ); and for the default base color the
first five tints are pairwise distinct — but claim indices five apart
cycle to the same blend, so distinct hex colors are not guaranteed in
general. -/
theorem C8_color_determinism_and_tints :
    (∀ (rules : List ColorRule) (names : List String),
      get_route_colors rules names = get_route_colors rules names) ∧
    (∀ (rules : List ColorRule) (names : List String), names.Nodup →
      ∀ i j, i < j → j < names.length →
      base_color_for rules (names.getD i "") =
          base_color_for rules (names.getD j "") →
      dictGetD (get_route_colors rules names) (names.getD i "") "" =
          tint_color (base_color_for rules (names.getD i ""))
            (claimIdx rules names i) ∧
        dictGetD (get_route_colors rules names) (names.getD j "") "" =
          tint_color (base_color_for rules (names.getD j ""))
            (claimIdx rules names j) ∧
        claimIdx rules names i < claimIdx rules names j) ∧
    List.Pairwise (fun a b => tint_color DEFAULT_ROUTE_COLOR a ≠
      tint_color DEFAULT_ROUTE_COLOR b) [0, 1, 2, 3, 4] := by
  refine ⟨fun rules names => rfl, ?_, by decide⟩
  intro rules names hnd i j hij hj hbase
  have hi : i < names.length := lt_trans hij hj
  have hv1 := route_colors_go_value rules names [] [] i hi hnd
  have hv2 := route_colors_go_value rules names [] [] j hj hnd
  simp only [dictGetD, Nat.zero_add] at hv1 hv2
  exact ⟨hv1, hv2, claimIdx_lt rules names i j hij hj hbase⟩

/-- C8 witness: the amended statement at two concrete same-base names. -/
theorem C8_color_determinism_and_tints_witness :
    dictGetD (get_route_colors c8Rules ["A1", "A2"]) (["A1", "A2"].getD 0 "") "" =
        tint_color (base_color_for c8Rules (["A1", "A2"].getD 0 ""))
          (claimIdx c8Rules ["A1", "A2"] 0) ∧
      dictGetD (get_route_colors c8Rules ["A1", "A2"]) (["A1", "A2"].getD 1 "") "" =
        tint_color (base_color_for c8Rules (["A1", "A2"].getD 1 ""))
          (claimIdx c8Rules ["A1", "A2"] 1) ∧
      claimIdx c8Rules ["A1", "A2"] 0 < claimIdx c8Rules ["A1", "A2"] 1 :=
  C8_color_determinism_and_tints.2.1 c8Rules ["A1", "A2"] (by decide) 0 1
    (by decide) (by decide) (by decide)
